import Mathlib

/-!
Shallow embedding of the deflate compressor core of the Beast repository
(include/beast/core/detail/zlib/deflate.cpp and
include/beast/zlib/impl/basic_deflate_stream.ipp).

Machine integers are modelled as Nat (or Int for the signed long
block_start), with explicit reduction modulo two to the 32 where the C
code can wrap an unsigned 32-bit quantity.  Byte buffers (window, input)
and the hash tables head and prev are modelled as total functions
Nat to Nat; array stores become pointwise functional updates.  Loops are
modelled as fuel-bounded recursions; the fuel chosen at each call site is
an upper bound on the number of iterations the C loop can perform from a
well-formed state, so on such states the embedding computes exactly what
the source computes.

The trees subsystem (trees.cpp: _tr_init, _tr_flush_block, _tr_tally_*,
_tr_flush_bits) and the zlib/zutil headers are not part of the given
sources; the few operations the core needs from them are modelled from
the specification (sections 4.3, 6.2) and are marked as such below.
-/

set_option autoImplicit false
set_option maxRecDepth 40000

namespace Beast

/-! ## Constants

The flush values, error codes and strategy values are declared in the
zlib header, which is not under the given sources.
Modelled from the spec: section 4.4 fixes the flush order none, partial,
sync, full, finish, block, and the comment at RANK in deflate.cpp fixes
Z_BLOCK = 5 strictly above Z_FINISH = 4; the error names in section 7 are
the standard zlib codes. -/

def Z_NO_FLUSH : Int := 0
def Z_PARTIAL_FLUSH : Int := 1
def Z_SYNC_FLUSH : Int := 2
def Z_FULL_FLUSH : Int := 3
def Z_FINISH : Int := 4
def Z_BLOCK : Int := 5

def Z_OK : Int := 0
def Z_STREAM_END : Int := 1
def Z_STREAM_ERROR : Int := -2
def Z_DATA_ERROR : Int := -3
def Z_BUF_ERROR : Int := -5
def Z_UNKNOWN : Int := 2

def Z_FILTERED : Nat := 1
def Z_HUFFMAN_ONLY : Nat := 2
def Z_RLE : Nat := 3
def Z_FIXED : Nat := 4

/-- Status values of the deflate state machine, from the deflate header
(not under the given sources; the values are the standard zlib ones and
only equality on them is ever used). -/
def BUSY_STATE : Nat := 113

/-- See BUSY_STATE. -/
def FINISH_STATE : Nat := 666

/-- MIN_MATCH, from the deflate header; spec section 3. -/
def MIN_MATCH : Nat := 3

/-- MAX_MATCH, from the deflate header; spec section 3. -/
def MAX_MATCH : Nat := 258

/-- MIN_LOOKAHEAD = MAX_MATCH + MIN_MATCH + 1, spec section 3. -/
def MIN_LOOKAHEAD : Nat := MAX_MATCH + MIN_MATCH + 1

/-- WIN_INIT = MAX_MATCH, spec section 3 and the comment above the
high-water code in fill_window. -/
def WIN_INIT : Nat := MAX_MATCH

/-- TOO_FAR, deflate.cpp line 141. -/
def TOO_FAR : Nat := 4096

/-- Two to the 32, the modulus of the unsigned 32-bit quantities. -/
def U32MOD : Nat := 4294967296

/-- Unsigned 32-bit subtraction a - b as the C compiler performs it on
uInt operands (a is assumed already reduced, b is reduced here). -/
def usub32 (a b : Nat) : Nat := (a + U32MOD - b % U32MOD) % U32MOD

/-- Conversion of a signed value to uint32, as a C cast performs it. -/
def intToUInt32 (x : Int) : Nat := (x % (U32MOD : Int)).toNat

/-! ## The stream state

One record for the z_stream fields and the deflate_stream fields used by
the claims.  The two Bool flags record whether the caller passed null
buffer pointers; msg records whether the error message slot is set.
blocks is the trace of blocks handed to the trees subsystem
(_tr_flush_block calls: length and final flag) and tokens is the trace of
tallied tokens (distance, length-or-literal); both are spec-modelled
observations of the external trees subsystem (spec section 6.2). -/

structure DeflateState where
  next_in_null : Bool
  next_in : Nat → Nat
  avail_in : Nat
  total_in : Nat
  next_out_null : Bool
  avail_out : Nat
  total_out : Nat
  msg : Bool
  data_type : Int
  status : Nat
  pending : Nat
  last_flush : Int
  w_size : Nat
  w_bits : Nat
  w_mask : Nat
  hash_size : Nat
  hash_bits : Nat
  hash_mask : Nat
  hash_shift : Nat
  window : Nat → Nat
  head : Nat → Nat
  prev : Nat → Nat
  strstart : Nat
  lookahead : Nat
  block_start : Int
  insert : Nat
  match_start : Nat
  match_length : Nat
  prev_length : Nat
  prev_match : Nat
  match_available : Bool
  ins_h : Nat
  high_water : Nat
  window_size : Nat
  pending_buf_size : Nat
  lit_bufsize : Nat
  last_lit : Nat
  level : Nat
  strategy : Nat
  good_match : Nat
  max_lazy_match : Nat
  nice_match : Nat
  max_chain_length : Nat
  blocks : List (Nat × Bool)
  tokens : List (Nat × Nat)

/-- MAX_DIST(s) = w_size - MIN_LOOKAHEAD, from the deflate header;
spec section 3. -/
def maxDist (s : DeflateState) : Nat := s.w_size - MIN_LOOKAHEAD

/-- UPDATE_HASH macro, deflate.cpp line 193. -/
def updateHash (s : DeflateState) (h c : Nat) : Nat :=
  ((h <<< s.hash_shift) ^^^ c) &&& s.hash_mask

/-- INSERT_STRING macro, deflate.cpp lines 206-209: update the rolling
hash with the byte at str + MIN_MATCH - 1, link position str into the
chain and return the previous chain head. -/
def insertString (s : DeflateState) (str : Nat) : DeflateState × Nat :=
  let h := updateHash s s.ins_h (s.window (str + (MIN_MATCH - 1)))
  let mh := s.head h
  ({ s with ins_h := h,
            prev := Function.update s.prev (str &&& s.w_mask) mh,
            head := Function.update s.head h str }, mh)

/-- CLEAR_HASH macro, deflate.cpp lines 215-217: zero all hash_size
entries of head. -/
def clearHash (s : DeflateState) : DeflateState :=
  { s with head := fun _ => 0 }

/-- read_buf, deflate.cpp lines 835-850, writing into the window at
offset ofs (the caller passes window + strstart + lookahead); returns the
number of bytes copied.  The adler update of the original zlib is absent
from this source. -/
def readBuf (s : DeflateState) (ofs size : Nat) : DeflateState × Nat :=
  let len := min s.avail_in size
  if len = 0 then (s, 0)
  else
    ({ s with avail_in := s.avail_in - len,
              window := fun i => if ofs ≤ i ∧ i < ofs + len then s.next_in (i - ofs) else s.window i,
              next_in := fun j => s.next_in (j + len),
              total_in := s.total_in + len }, len)

/-! ## Trees subsystem operations

Modelled from the spec: the trees subsystem (trees.cpp) is not under the
given sources.  Section 6.2 gives its contract: tr_tally appends a token
and reports a full tally; tr_flush_block emits a complete block for the
given byte range and resets the tally; tr_flush_bits moves whole bytes of
the bit accumulator into the pending buffer.  Tokens and blocks are
recorded as traces; a flushed block adds its length plus the five byte
stored-block header to the pending count (section 4.3.1); the bit
accumulator itself is not modelled, so tr_flush_bits is the identity. -/

/-- Modelled from the spec: _tr_tally_lit (macro in deflate.cpp lines
99-105, writing through to the missing trees tables): record the literal,
bump last_lit, report whether the tally buffer is full. -/
def tallyLit (s : DeflateState) (c : Nat) : DeflateState × Bool :=
  ({ s with tokens := s.tokens ++ [(0, c % 256)], last_lit := s.last_lit + 1 },
   s.last_lit + 1 = s.lit_bufsize - 1)

/-- Modelled from the spec: _tr_tally_dist (macro in deflate.cpp lines
106-115): record the pair (distance, length), truncated to the widths of
d_buf and l_buf, bump last_lit, report whether the tally buffer is
full. -/
def tallyDist (s : DeflateState) (distance length : Nat) : DeflateState × Bool :=
  ({ s with tokens := s.tokens ++ [(distance % 65536, length % 256)],
            last_lit := s.last_lit + 1 },
   s.last_lit + 1 = s.lit_bufsize - 1)

/-- Modelled from the spec: _tr_flush_block (trees.cpp, missing): emit a
complete block covering len input bytes with the given final flag and
reset the tally; the stored encoding moves len plus a five byte header
into the pending buffer (sections 4.3.1 and 6.2). -/
def trFlushBlock (s : DeflateState) (len : Nat) (last : Bool) : DeflateState :=
  { s with blocks := s.blocks ++ [(len, last)],
           pending := s.pending + len + 5,
           last_lit := 0 }

/-- flush_pending, deflate.cpp lines 669-689.  The leading
_tr_flush_bits call is spec-modelled as the identity (the bit accumulator
is not modelled). -/
def flush_pending (s : DeflateState) : DeflateState :=
  let len := min s.pending s.avail_out
  if len = 0 then s
  else
    { s with total_out := s.total_out + len,
             avail_out := s.avail_out - len,
             pending := s.pending - len }

/-- FLUSH_BLOCK_ONLY macro, deflate.cpp lines 1014-1023: flush the block
from block_start to strstart (length cast to uint32), rebase block_start,
drain pending output. -/
def flushBlockOnly (s : DeflateState) (last : Bool) : DeflateState :=
  let len := intToUInt32 ((s.strstart : Int) - s.block_start)
  let s1 := trFlushBlock s len last
  let s2 := { s1 with block_start := (s1.strstart : Int) }
  flush_pending s2

/-! ## fill_window, deflate.cpp lines 229-363 -/

/-- The window slide, deflate.cpp lines 257-286: copy the upper half of
the window down, rebase match_start, strstart (unsigned 32-bit) and
block_start (signed) by w_size, and rebase every head and prev entry,
zeroing entries below w_size. -/
def slideBlock (s : DeflateState) : DeflateState :=
  { s with window := fun i => if i < s.w_size then s.window (i + s.w_size) else s.window i,
           match_start := usub32 s.match_start s.w_size,
           strstart := usub32 s.strstart s.w_size,
           block_start := s.block_start - (s.w_size : Int),
           head := fun i => if s.head i ≥ s.w_size then s.head i - s.w_size else 0,
           prev := fun i => if s.prev i ≥ s.w_size then s.prev i - s.w_size else 0 }

/-- The conditional slide at the top of each fill_window iteration,
deflate.cpp line 257: slide exactly when strstart ≥ w_size + MAX_DIST. -/
def fillWindowSlide (s : DeflateState) : DeflateState :=
  if s.strstart ≥ s.w_size + maxDist s then slideBlock s else s

/-- The hash replay loop of fill_window, deflate.cpp lines 311-319: while
insert is nonzero, roll the hash over the position str, link it, and stop
early once lookahead + insert drops below MIN_MATCH.  The loop runs at
most insert times, which the fuel argument bounds. -/
def replayLoop : Nat → DeflateState → Nat → DeflateState
  | 0, s, _ => s
  | fuel + 1, s, str =>
    if s.insert = 0 then s
    else
      let h := updateHash s s.ins_h (s.window (str + (MIN_MATCH - 1)))
      let s1 := { s with ins_h := h,
                         prev := Function.update s.prev (str &&& s.w_mask) (s.head h),
                         head := Function.update s.head h str,
                         insert := s.insert - 1 }
      if s1.lookahead + s1.insert < MIN_MATCH then s1
      else replayLoop fuel s1 (str + 1)

/-- The high-water zeroing after the fill_window loop, deflate.cpp lines
334-359. -/
def highWaterUpdate (s : DeflateState) : DeflateState :=
  if s.high_water < s.window_size then
    let curr := s.strstart + s.lookahead
    if s.high_water < curr then
      let init := min (s.window_size - curr) WIN_INIT
      { s with window := fun i => if curr ≤ i ∧ i < curr + init then 0 else s.window i,
               high_water := curr + init }
    else if s.high_water < curr + WIN_INIT then
      let init := min (curr + WIN_INIT - s.high_water) (s.window_size - s.high_water)
      { s with window := fun i => if s.high_water ≤ i ∧ i < s.high_water + init then 0 else s.window i,
               high_water := s.high_water + init }
    else s
  else s

/-- The do-while loop of fill_window, deflate.cpp lines 238-325.  The
16-bit branch (sizeof int ≤ 2, lines 242-252) is statically dead on the
32-bit-int targets of this code and is omitted.  Every iteration that
recurses has read at least one input byte on a well-formed state
(more ≥ 2 there, see the assertion at line 301), so avail_in + 1 bounds
the iteration count. -/
def fillWindowLoop : Nat → DeflateState → DeflateState
  | 0, s => s
  | fuel + 1, s0 =>
    let more0 := s0.window_size - s0.lookahead - s0.strstart
    let s1 := fillWindowSlide s0
    let more := if s0.strstart ≥ s0.w_size + maxDist s0 then more0 + s0.w_size else more0
    if s1.avail_in = 0 then s1
    else
      let r := readBuf s1 (s1.strstart + s1.lookahead) more
      let s2 := { r.1 with lookahead := r.1.lookahead + r.2 }
      let s3 :=
        if s2.lookahead + s2.insert ≥ MIN_MATCH then
          let str := s2.strstart - s2.insert
          let h0 := s2.window str
          let h1 := updateHash s2 h0 (s2.window (str + 1))
          replayLoop s2.insert { s2 with ins_h := h1 } str
        else s2
      if s3.lookahead < MIN_LOOKAHEAD ∧ s3.avail_in ≠ 0 then fillWindowLoop fuel s3
      else s3

/-- fill_window, deflate.cpp lines 229-363: the refill loop followed by
the high-water maintenance. -/
def fillWindow (s : DeflateState) : DeflateState :=
  highWaterUpdate (fillWindowLoop (s.avail_in + 1) s)

/-! ## deflate_stored, deflate.cpp lines 1040-1095 -/

/-- The return values of the strategy engines (block_state in the
deflate header; spec section 4.3 lists exactly these four). -/
inductive BlockState where
  | need_more
  | block_done
  | finish_started
  | finish_done
  deriving DecidableEq

/-- The stored-block size limit, deflate.cpp lines 1047-1052:
max_block_size = 0xffff, capped at pending_buf_size - 5. -/
def maxBlockSize (s : DeflateState) : Nat :=
  min 65535 (s.pending_buf_size - 5)

/-- The emit-if-full step of deflate_stored, deflate.cpp lines 1072-1079:
when strstart reaches block_start + max_block_size (or wrapped to zero),
push the excess back into lookahead, clamp strstart to max_start and
flush the block; a some result is an early return caused by a full
output buffer. -/
def storedFullFlush (s : DeflateState) : DeflateState × Option BlockState :=
  let max_start := intToUInt32 (s.block_start + (maxBlockSize s : Int))
  if s.strstart = 0 ∨ s.strstart ≥ max_start then
    let s1 := { s with lookahead := usub32 s.strstart max_start, strstart := max_start }
    let s2 := flushBlockOnly s1 false
    if s2.avail_out = 0 then (s2, some BlockState.need_more) else (s2, none)
  else (s, none)

/-- The slide-protection step of deflate_stored, deflate.cpp lines
1083-1085: flush when strstart - block_start (computed in unsigned
32-bit arithmetic) reaches MAX_DIST. -/
def storedSlideFlush (s : DeflateState) : DeflateState × Option BlockState :=
  if usub32 s.strstart (intToUInt32 s.block_start) ≥ maxDist s then
    let s1 := flushBlockOnly s false
    if s1.avail_out = 0 then (s1, some BlockState.need_more) else (s1, none)
  else (s, none)

/-- The three ways one iteration of the deflate_stored copy loop can
leave control: an early return of the engine, the break to the common
exit code, or falling through to the next iteration. -/
inductive StoredStep where
  | ret (s : DeflateState) (bs : BlockState)
  | brk (s : DeflateState)
  | cont (s : DeflateState)

/-- One iteration of the copy loop of deflate_stored, deflate.cpp lines
1055-1086: refill when at most one byte of lookahead remains (with the
need_more return and the flush break of lines 1063-1065), swallow the
lookahead into strstart, then the fullness flush and the
slide-protection flush.  The conditional refill of line 1057 is named
storedRefill. -/
def storedRefill (s0 : DeflateState) : DeflateState :=
  if s0.lookahead ≤ 1 then fillWindow s0 else s0

/-- Lines 1069-1070 of deflate.cpp: swallow the lookahead into
strstart. -/
def storedAdvance (s : DeflateState) : DeflateState :=
  { s with strstart := s.strstart + s.lookahead, lookahead := 0 }

def storedIterate (s0 : DeflateState) (flush : Int) : StoredStep :=
  let s1 := storedRefill s0
  if s0.lookahead ≤ 1 ∧ s1.lookahead = 0 ∧ flush = Z_NO_FLUSH then
    StoredStep.ret s1 BlockState.need_more
  else if s0.lookahead ≤ 1 ∧ s1.lookahead = 0 then StoredStep.brk s1
  else
    match storedFullFlush (storedAdvance s1) with
    | (s3, some bs) => StoredStep.ret s3 bs
    | (s3, none) =>
      match storedSlideFlush s3 with
      | (s4, some bs) => StoredStep.ret s4 bs
      | (s4, none) => StoredStep.cont s4

/-- The main loop of deflate_stored, deflate.cpp lines 1055-1086.
Sum.inl is the break out of the loop (to the common exit code),
Sum.inr an early return.  Fuel bounds the number of iterations; at
fuel 0 the loop reports need_more (an under-approximation that the
call sites below never reach, their fuel exceeding the iteration
count possible from their states). -/
def deflateStoredLoop : Nat → DeflateState → Int → DeflateState ⊕ (DeflateState × BlockState)
  | 0, s, _ => Sum.inr (s, BlockState.need_more)
  | fuel + 1, s0, flush =>
    match storedIterate s0 flush with
    | StoredStep.ret s1 bs => Sum.inr (s1, bs)
    | StoredStep.brk s1 => Sum.inl s1
    | StoredStep.cont s1 => deflateStoredLoop fuel s1 flush

/-- deflate_stored, deflate.cpp lines 1040-1095: the copy loop, then
insert := 0 and the final flushes. -/
def deflateStored (fuel : Nat) (s : DeflateState) (flush : Int) : DeflateState × BlockState :=
  match deflateStoredLoop fuel s flush with
  | Sum.inr r => r
  | Sum.inl s1 =>
    let s2 := { s1 with insert := 0 }
    if flush = Z_FINISH then
      let s3 := flushBlockOnly s2 true
      if s3.avail_out = 0 then (s3, BlockState.finish_started)
      else (s3, BlockState.finish_done)
    else
      let s3 := if (s2.strstart : Int) > s2.block_start then flushBlockOnly s2 false else s2
      if (s2.strstart : Int) > s2.block_start ∧ s3.avail_out = 0 then (s3, BlockState.need_more)
      else (s3, BlockState.block_done)

/-! ## longest_match, deflate.cpp lines 890-980 -/

/-- The byte-compare run of longest_match, deflate.cpp lines 950-965:
offsets 0 and 1 were checked by the caller and offset 2 is implied by the
hash (comment at lines 944-948), so the scan counts matching bytes from
offset 3 up to MAX_MATCH = 258; the unrolled do-while stops exactly at
the first mismatching offset or at 258 (the groups of eight divide
258 - 2 evenly, see the comment at lines 953-955). -/
def matchLenAux (w : Nat → Nat) (a b : Nat) : Nat → Nat → Nat
  | 0, i => i
  | fuel + 1, i => if w (a + i) = w (b + i) then matchLenAux w a b fuel (i + 1) else i

/-- Candidate match length at cur against the string at strstart. -/
def matchLenFrom (w : Nat → Nat) (scanBase matchBase : Nat) : Nat :=
  matchLenAux w scanBase matchBase (MAX_MATCH - MIN_MATCH) MIN_MATCH

/-- One chain step of longest_match, deflate.cpp lines 927-974: the quick
rejection against scan_end and scan_end1, then the full compare and the
best-length bookkeeping; result (best, match_start, scan_end1, scan_end,
break-flag), the break firing when the new length reaches nice. -/
def lmStep (s : DeflateState) (nice cur best mstart se1 se : Nat) :
    Nat × Nat × Nat × Nat × Bool :=
  if s.window (cur + best) ≠ se ∨ s.window (cur + best - 1) ≠ se1 ∨
     s.window cur ≠ s.window s.strstart ∨
     s.window (cur + 1) ≠ s.window (s.strstart + 1) then
    (best, mstart, se1, se, false)
  else
    let len := matchLenFrom s.window s.strstart cur
    if len > best then
      if len ≥ nice then (len, cur, se1, se, true)
      else (len, cur, s.window (s.strstart + len - 1), s.window (s.strstart + len), false)
    else (best, mstart, se1, se, false)

/-- The chain walk of longest_match, deflate.cpp lines 927-976.  The
first argument is the remaining chain budget (chain_length); the C
condition cur > limit and pre-decremented chain nonzero maps to
recursing exactly when the budget is at least two.  The unsigned
wraparound of a zero initial chain_length never occurs (the
configuration table keeps max_chain at least 4 for every level using
the match finder) and is not modelled. -/
def lmLoop (s : DeflateState) (limit nice wmask : Nat) :
    Nat → Nat → Nat → Nat → Nat → Nat → Nat × Nat
  | 0, cur, best, mstart, se1, se =>
    match lmStep s nice cur best mstart se1 se with
    | (b1, m1, _, _, _) => (b1, m1)
  | 1, cur, best, mstart, se1, se =>
    match lmStep s nice cur best mstart se1 se with
    | (b1, m1, _, _, _) => (b1, m1)
  | c + 2, cur, best, mstart, se1, se =>
    match lmStep s nice cur best mstart se1 se with
    | (b1, m1, x1, y1, brk) =>
      if brk then (b1, m1)
      else
        let cur1 := s.prev (cur &&& wmask)
        if cur1 > limit then lmLoop s limit nice wmask (c + 1) cur1 b1 m1 x1 y1
        else (b1, m1)

/-- The chain walk of longest_match with its initialisation, deflate.cpp
lines 893-976: chain budget (quartered above good_match), nice clamped to
the lookahead, the limit at strstart - MAX_DIST, and the initial scan-end
bytes at offset prev_length; returns (best_len, match_start). -/
def longestMatchCore (s : DeflateState) (cur_match : Nat) : Nat × Nat :=
  let chain0 := s.max_chain_length
  let chain := if s.prev_length ≥ s.good_match then chain0 >>> 2 else chain0
  let nice := if s.nice_match > s.lookahead then s.lookahead else s.nice_match
  let limit := if s.strstart > maxDist s then s.strstart - maxDist s else 0
  lmLoop s limit nice s.w_mask chain cur_match s.prev_length s.match_start
    (s.window (s.strstart + s.prev_length - 1)) (s.window (s.strstart + s.prev_length))

/-- The best_len accumulated by the chain walk. -/
def lmBest (s : DeflateState) (cur_match : Nat) : Nat :=
  (longestMatchCore s cur_match).1

/-- longest_match, deflate.cpp lines 890-980: the chain walk followed by
the final clamp to the lookahead (lines 978-979); returns the length and
the match_start the walk produced. -/
def longestMatch (s : DeflateState) (cur_match : Nat) : Nat × Nat :=
  let r := longestMatchCore s cur_match
  (if r.1 ≤ s.lookahead then r.1 else s.lookahead, r.2)

/-! ## deflate_slow, deflate.cpp lines 1199-1321 -/

/-- The body of the insertion do-while of the commit branch,
deflate.cpp lines 1275-1277: advance strstart, insert the new position
when it does not pass max_insert. -/
def slowInsertStep (max_insert : Nat) (s : DeflateState) : DeflateState :=
  let s1 := { s with strstart := s.strstart + 1 }
  if s1.strstart ≤ max_insert then (insertString s1 s1.strstart).1 else s1

/-- The insertion do-while of the commit branch, deflate.cpp lines
1274-1278: the counter runs the body exactly prev_length - 2 times. -/
def slowInsertLoop (max_insert : Nat) : Nat → DeflateState → DeflateState
  | 0, s => s
  | n + 1, s => slowInsertLoop max_insert n (slowInsertStep max_insert s)

/-- The commit branch of deflate_slow, deflate.cpp lines 1258-1281:
tally the deferred match (distance strstart - 1 - prev_match in unsigned
arithmetic, length prev_length - MIN_MATCH), drop the covered lookahead,
insert the covered positions bounded by max_insert, then clear the
deferred state and step past the match; the loop decrements prev_length
to zero.  Returns the tally-full flag. -/
def slowCommit (s0 : DeflateState) : DeflateState × Bool :=
  let max_insert := s0.strstart + s0.lookahead - MIN_MATCH
  let r := tallyDist s0 (usub32 (usub32 s0.strstart 1) s0.prev_match)
             (s0.prev_length - MIN_MATCH)
  let s1 := r.1
  let s2 := { s1 with lookahead := s1.lookahead - (s1.prev_length - 1) }
  let s3 := slowInsertLoop max_insert (s2.prev_length - 2) s2
  ({ s3 with prev_length := 0, match_available := false,
             match_length := MIN_MATCH - 1, strstart := s3.strstart + 1 }, r.2)

/-- The decision step of deflate_slow, deflate.cpp lines 1255-1305:
commit the previous match, or emit the deferred literal, or defer; a
some result is an early return of the engine (need_more on a full
output buffer). -/
def slowDecide (s : DeflateState) : DeflateState × Option BlockState :=
  if s.prev_length ≥ MIN_MATCH ∧ s.match_length ≤ s.prev_length then
    let r := slowCommit s
    if r.2 then
      let s2 := flushBlockOnly r.1 false
      if s2.avail_out = 0 then (s2, some BlockState.need_more) else (s2, none)
    else (r.1, none)
  else if s.match_available then
    let r := tallyLit s (s.window (s.strstart - 1))
    let s1 := if r.2 then flushBlockOnly r.1 false else r.1
    let s2 := { s1 with strstart := s1.strstart + 1, lookahead := s1.lookahead - 1 }
    if s2.avail_out = 0 then (s2, some BlockState.need_more) else (s2, none)
  else
    ({ s with match_available := true, strstart := s.strstart + 1,
              lookahead := s.lookahead - 1 }, none)

/-- The search phase of one deflate_slow iteration, deflate.cpp lines
1220-1253: insert the current string, save the previous match, run the
match finder when the chain head is usable, and discard filtered or
too-far short matches.  Returns the hash head. -/
def slowPhaseA (s0 : DeflateState) : DeflateState × Nat :=
  let r := if s0.lookahead ≥ MIN_MATCH then insertString s0 s0.strstart else (s0, 0)
  let s1 := r.1
  let hash_head := r.2
  let s2 := { s1 with prev_length := s1.match_length, prev_match := s1.match_start,
                      match_length := MIN_MATCH - 1 }
  let s3 :=
    if hash_head ≠ 0 ∧ s2.prev_length < s2.max_lazy_match ∧
       s2.strstart - hash_head ≤ maxDist s2 then
      let m := longestMatch s2 hash_head
      let s := { s2 with match_length := m.1, match_start := m.2 }
      if s.match_length ≤ 5 ∧ (s.strategy = Z_FILTERED ∨
          (s.match_length = MIN_MATCH ∧ s.strstart - s.match_start > TOO_FAR)) then
        { s with match_length := MIN_MATCH - 1 }
      else s
    else s2
  (s3, hash_head)

/-- One full iteration body of the deflate_slow loop (after the
lookahead refill check), deflate.cpp lines 1220-1305. -/
def deflateSlowStep (s : DeflateState) : DeflateState × Option BlockState :=
  slowDecide (slowPhaseA s).1

/-- The positions strstart + 1 .. strstart + n. -/
def posList (st n : Nat) : List Nat :=
  (List.range n).map (fun i => st + 1 + i)

/-- The positions the commit branch inserts into the hash: strstart + 1
through strstart + prev_length - 2, bounded by
strstart + lookahead - MIN_MATCH. -/
def insertedList (s : DeflateState) : List Nat :=
  (posList s.strstart (s.prev_length - 2)).filter
    (fun p => p ≤ s.strstart + s.lookahead - MIN_MATCH)

/-- Folding plain hash insertions over a list of positions. -/
def hashFoldAll (s : DeflateState) (ps : List Nat) : DeflateState :=
  ps.foldl (fun t p => (insertString t p).1) s

/-- Folding hash insertions guarded by the max_insert bound. -/
def hashFoldIf (max_insert : Nat) (s : DeflateState) (ps : List Nat) : DeflateState :=
  ps.foldl (fun t p => if p ≤ max_insert then (insertString t p).1 else t) s

/-- Agreement of two states on every field the hash insertion reads or
writes (window, rolling hash, head, prev, and the mask and shift
parameters). -/
def HashAgree (s t : DeflateState) : Prop :=
  s.window = t.window ∧ s.ins_h = t.ins_h ∧ s.head = t.head ∧ s.prev = t.prev ∧
  s.w_mask = t.w_mask ∧ s.hash_shift = t.hash_shift ∧ s.hash_mask = t.hash_mask

/-! ## deflateSetDictionary, deflate.cpp lines 438-491 -/

/-- The inner hash-insertion do-while of deflateSetDictionary,
deflate.cpp lines 472-477: runs its body (roll the hash at str, link
str, advance) exactly n = lookahead - (MIN_MATCH - 1) times. -/
def setDictInner : Nat → DeflateState → Nat → DeflateState
  | 0, s, _ => s
  | n + 1, s, str =>
    let h := updateHash s s.ins_h (s.window (str + (MIN_MATCH - 1)))
    let s1 := { s with ins_h := h,
                       prev := Function.update s.prev (str &&& s.w_mask) (s.head h),
                       head := Function.update s.head h str }
    setDictInner n s1 (str + 1)

/-- The outer insertion loop of deflateSetDictionary, deflate.cpp lines
469-481: while lookahead reaches MIN_MATCH, insert every insertable
position, keep the last MIN_MATCH - 1 bytes, refill.  Each iteration
consumes input, so avail_in + 1 at entry bounds the iterations of a
well-formed run. -/
def setDictLoop : Nat → DeflateState → DeflateState
  | 0, s => s
  | fuel + 1, s =>
    if s.lookahead ≥ MIN_MATCH then
      let str := s.strstart
      let n := s.lookahead - (MIN_MATCH - 1)
      let s1 := setDictInner n s str
      let s2 := { s1 with strstart := str + n, lookahead := MIN_MATCH - 1 }
      setDictLoop fuel (fillWindow s2)
    else s

/-- deflateSetDictionary, deflate.cpp lines 438-491: reject when
lookahead is nonzero; otherwise keep the tail of an oversized
dictionary, feed the dictionary through fill_window and the insertion
loop, and finish by committing strstart, block_start and insert and
restoring the caller input. -/
def deflateSetDictionary (s0 : DeflateState) (dictionary : Nat → Nat) (dictLength : Nat) :
    DeflateState × Int :=
  if s0.lookahead ≠ 0 then (s0, Z_STREAM_ERROR)
  else
    let s1 :=
      if dictLength ≥ s0.w_size then
        clearHash { s0 with strstart := 0, block_start := 0, insert := 0 }
      else s0
    let dict : Nat → Nat :=
      if dictLength ≥ s0.w_size then fun i => dictionary (i + (dictLength - s0.w_size))
      else dictionary
    let dlen := if dictLength ≥ s0.w_size then s0.w_size else dictLength
    let avail := s1.avail_in
    let next := s1.next_in
    let s2 := { s1 with avail_in := dlen, next_in := dict }
    let s3 := fillWindow s2
    let s4 := setDictLoop (dlen + 1) s3
    let s5 := { s4 with strstart := s4.strstart + s4.lookahead,
                        block_start := ((s4.strstart + s4.lookahead : Nat) : Int),
                        insert := s4.lookahead,
                        lookahead := 0,
                        match_length := MIN_MATCH - 1, prev_length := MIN_MATCH - 1,
                        match_available := false,
                        next_in := next, avail_in := avail }
    (s5, Z_OK)

/-! ## deflateResetKeep, both versions -/

/-- deflate_stream deflateResetKeep, deflate.cpp lines 495-512: zero the
totals, clear msg, reset data_type, pending and the flush state, and
reinitialise the trees subsystem (_tr_init, spec-modelled as resetting
the tally count). -/
def deflateResetKeep (s : DeflateState) : DeflateState × Int :=
  ({ s with total_in := 0, total_out := 0, msg := false, data_type := Z_UNKNOWN,
            pending := 0, status := BUSY_STATE, last_flush := Z_NO_FLUSH,
            last_lit := 0 }, Z_OK)

/-- basic_deflate_stream deflateResetKeep, basic_deflate_stream.ipp
lines 122-140: the totals, msg and data_type updates are commented out
(VFALCO TODO); only pending, the status, the flush state and the trees
subsystem are reset. -/
def basicDeflateResetKeep (s : DeflateState) : DeflateState :=
  { s with pending := 0, status := BUSY_STATE, last_flush := Z_NO_FLUSH,
           last_lit := 0 }

/-! ## upper_bound, basic_deflate_stream.ipp lines 218-240 -/

/-- Two to the 64, the modulus of size_t arithmetic. -/
def U64MOD : Nat := 18446744073709551616

/-- basic_deflate_stream upper_bound, basic_deflate_stream.ipp lines
218-240, in size_t arithmetic: the conservative bound for non-default
parameters, the tight bound when w_bits = 15 and hash_bits = 15;
wraplen is zero in this source. -/
def upper_bound (s : DeflateState) (sourceLen : Nat) : Nat :=
  let complen := (sourceLen + (((sourceLen + 7) % U64MOD) >>> 3) +
                  (((sourceLen + 63) % U64MOD) >>> 6) + 5) % U64MOD
  let wraplen := 0
  if s.w_bits ≠ 15 ∨ s.hash_bits ≠ 8 + 7 then (complen + wraplen) % U64MOD
  else
    (sourceLen + (sourceLen >>> 12) + (sourceLen >>> 14) +
     (sourceLen >>> 25) + 13 - 6 + wraplen) % U64MOD

/-- The formula of the claim for the default parameters. -/
def claimBoundDefault (n : Nat) : Nat :=
  n + (n >>> 12) + (n >>> 14) + (n >>> 25) + 7

/-- The formula of the claim for every other parameter combination,
with the ceilings written as (n + 7) / 8 and (n + 63) / 64. -/
def claimBoundOther (n : Nat) : Nat :=
  n + (n + 7) / 8 + (n + 63) / 64 + 5

/-! ## The entry and guard sequence of deflate, deflate.cpp lines 693-741 -/

/-- The RANK macro, deflate.cpp line 185: rank Z_BLOCK between
Z_NO_FLUSH and Z_PARTIAL_FLUSH; the left shift by one on the int f is
multiplication by two for every value that occurs (the flush values 0..5
and the stall sentinel -1). -/
def RANK (f : Int) : Int := 2 * f - (if f > 4 then 9 else 0)

/-- The ERR_RETURN macro of zutil (header not under the given sources):
set the message slot and return the error. -/
def errReturn (s : DeflateState) (e : Int) : DeflateState × Option Int :=
  ({ s with msg := true }, some e)

/-- The guard at deflate.cpp lines 739-741: more input after the first
FINISH is a buffer error; a none second component means control reaches
the block-production body at line 745. -/
def finishGuard (s : DeflateState) : DeflateState × Option Int :=
  if s.status = FINISH_STATE ∧ s.avail_in ≠ 0 then errReturn s Z_BUF_ERROR
  else (s, none)

/-- The entry and guard sequence of deflate, deflate.cpp lines 693-741:
parameter validation, the pending-output drain, the duplicate-flush
rejection via RANK, and the input-after-finish guard.  A some result is
the value deflate returns at that guard; none means the call proceeds to
the strategy dispatch (line 745 onward), which is outside this
embedding. -/
def deflateEntry (s0 : DeflateState) (flush : Int) : DeflateState × Option Int :=
  if flush > Z_BLOCK ∨ flush < 0 then (s0, some Z_STREAM_ERROR)
  else if s0.next_out_null = true ∨ (s0.next_in_null = true ∧ s0.avail_in ≠ 0) ∨
          (s0.status = FINISH_STATE ∧ flush ≠ Z_FINISH) then
    errReturn s0 Z_STREAM_ERROR
  else if s0.avail_out = 0 then errReturn s0 Z_BUF_ERROR
  else
    let old_flush := s0.last_flush
    let s := { s0 with last_flush := flush }
    if s.pending ≠ 0 then
      let s1 := flush_pending s
      if s1.avail_out = 0 then ({ s1 with last_flush := -1 }, some Z_OK)
      else finishGuard s1
    else if s.avail_in = 0 ∧ RANK flush ≤ RANK old_flush ∧ flush ≠ Z_FINISH then
      errReturn s Z_BUF_ERROR
    else finishGuard s

/-! ## Concrete states

A freshly reset stream with the default parameters wBits = 15 and
memLevel = 8 (w_size 32768, window_size 65536, hash_bits 15,
lit_bufsize 16384, pending_buf_size 65536, hash_shift 5), as produced by
deflateInit2 followed by deflateReset and lm_init, and the variants the
claims below are evaluated at. -/

def baseState : DeflateState where
  next_in_null := false
  next_in := fun _ => 0
  avail_in := 0
  total_in := 0
  next_out_null := false
  avail_out := 0
  total_out := 0
  msg := false
  data_type := Z_UNKNOWN
  status := BUSY_STATE
  pending := 0
  last_flush := Z_NO_FLUSH
  w_size := 32768
  w_bits := 15
  w_mask := 32767
  hash_size := 32768
  hash_bits := 15
  hash_mask := 32767
  hash_shift := 5
  window := fun _ => 0
  head := fun _ => 0
  prev := fun _ => 0
  strstart := 0
  lookahead := 0
  block_start := 0
  insert := 0
  match_start := 0
  match_length := 2
  prev_length := 2
  prev_match := 0
  match_available := false
  ins_h := 0
  high_water := 0
  window_size := 65536
  pending_buf_size := 65536
  lit_bufsize := 16384
  last_lit := 0
  level := 0
  strategy := 0
  good_match := 0
  max_lazy_match := 0
  nice_match := 0
  max_chain_length := 0
  blocks := []
  tokens := []

/-- A level-0 stream fed 70000 input bytes with ample output room. -/
def c2State : DeflateState :=
  { baseState with avail_in := 70000, next_in := fun _ => 97, avail_out := 1000000 }

/-- A state at the stored-engine fullness threshold: strstart has run
65531 bytes past block_start. -/
def c2wState : DeflateState :=
  { baseState with strstart := 70000, lookahead := 0, avail_out := 1000000 }

/-- A stream in the finish state, called again without input. -/
def c3State : DeflateState :=
  { baseState with status := FINISH_STATE, avail_out := 1 }

/-- A busy stream with no input whose previous call used sync flush. -/
def c3wState : DeflateState :=
  { baseState with last_flush := Z_SYNC_FLUSH, avail_out := 4 }

/-- A stream about to slide: strstart is past w_size + MAX_DIST. -/
def c5wState : DeflateState :=
  { baseState with strstart := 65300, match_start := 40000, block_start := 40000,
                   lookahead := 0 }

/-- A level-9-like search state over a constant window: every candidate
matches fully, so the first chain step reaches nice_match. -/
def c6wState : DeflateState :=
  { baseState with strstart := 100, lookahead := 300, prev_length := 2,
                   good_match := 32, nice_match := 258, max_chain_length := 4096,
                   max_lazy_match := 258 }

/-- A lazy-engine state holding a deferred 4-byte match at strstart - 1
against position 5. -/
def c7wState : DeflateState :=
  { baseState with strstart := 10, lookahead := 300, prev_length := 4,
                   match_length := 2, prev_match := 5, avail_out := 100 }

/-- A stream with nonzero byte counters. -/
def c8State : DeflateState :=
  { baseState with total_in := 7, total_out := 9 }

/-- A stream that has consumed five input bytes but holds no lookahead. -/
def c9State : DeflateState :=
  { baseState with total_in := 5 }

/-- A two-byte dictionary. -/
def c9Dict : Nat → Nat := fun _ => 97

/-- A stream holding unconsumed lookahead. -/
def c9wState : DeflateState :=
  { baseState with lookahead := 1, total_in := 5 }

/-- A busy stream with input but no output room. -/
def c10State : DeflateState :=
  { baseState with avail_in := 3, next_in := fun _ => 1, avail_out := 0 }

/-! ## Helper lemmas -/

theorem usub32_eq (a b : Nat) (hb : b ≤ a) (ha : a < U32MOD) : usub32 a b = a - b := by
  unfold usub32 U32MOD at *
  omega

theorem intToUInt32_eq (x : Int) (h0 : 0 ≤ x) (h1 : x < (U32MOD : Int)) :
    intToUInt32 x = x.toNat := by
  unfold intToUInt32 U32MOD at *
  omega

theorem flushBlockOnly_insert (s : DeflateState) (l : Bool) :
    (flushBlockOnly s l).insert = s.insert := by
  simp only [flushBlockOnly, trFlushBlock, flush_pending]
  split_ifs <;> rfl

theorem flushBlockOnly_blocks (s : DeflateState) (l : Bool) :
    (flushBlockOnly s l).blocks =
      s.blocks ++ [(intToUInt32 ((s.strstart : Int) - s.block_start), l)] := by
  simp only [flushBlockOnly, trFlushBlock, flush_pending]
  split_ifs <;> rfl

theorem flushBlockOnly_tokens (s : DeflateState) (l : Bool) :
    (flushBlockOnly s l).tokens = s.tokens := by
  simp only [flushBlockOnly, trFlushBlock, flush_pending]
  split_ifs <;> rfl

theorem flushBlockOnly_strstart (s : DeflateState) (l : Bool) :
    (flushBlockOnly s l).strstart = s.strstart := by
  simp only [flushBlockOnly, trFlushBlock, flush_pending]
  split_ifs <;> rfl

theorem flushBlockOnly_match_available (s : DeflateState) (l : Bool) :
    (flushBlockOnly s l).match_available = s.match_available := by
  simp only [flushBlockOnly, trFlushBlock, flush_pending]
  split_ifs <;> rfl

theorem flushBlockOnly_head (s : DeflateState) (l : Bool) :
    (flushBlockOnly s l).head = s.head := by
  simp only [flushBlockOnly, trFlushBlock, flush_pending]
  split_ifs <;> rfl

theorem flushBlockOnly_prev (s : DeflateState) (l : Bool) :
    (flushBlockOnly s l).prev = s.prev := by
  simp only [flushBlockOnly, trFlushBlock, flush_pending]
  split_ifs <;> rfl

/-! ## Claim C8 -/

/-- Claim C8 counterexample: the deflate.cpp deflateResetKeep zeroes
both counters on a stream whose counters were 7 and 9, so they do not
hold their previous values. -/
theorem c8_counterexample :
    (deflateResetKeep c8State).1.total_in = 0 ∧ (deflateResetKeep c8State).1.total_out = 0 ∧
    c8State.total_in = 7 ∧ c8State.total_out = 9 := by
  exact ⟨rfl, rfl, rfl, rfl⟩

/-- Claim C8 (amended): the basic_deflate_stream version of
deflateResetKeep (basic_deflate_stream.ipp) leaves total_in and total_out
unchanged for every stream state, but the deflate_stream version
(deflate.cpp) zeroes both. -/
theorem c8_amended (s : DeflateState) :
    (basicDeflateResetKeep s).total_in = s.total_in ∧
    (basicDeflateResetKeep s).total_out = s.total_out ∧
    (deflateResetKeep s).1.total_in = 0 ∧
    (deflateResetKeep s).1.total_out = 0 :=
  ⟨rfl, rfl, rfl, rfl⟩

/-! ## Claim C4 -/

/-- Claim C4: upper_bound equals n + (n >> 12) + (n >> 14) + (n >> 25) + 7
when w_bits = 15 and hash_bits = 15 (the default wBits 15, memLevel 8),
and n + ceil(n/8) + ceil(n/64) + 5 for every other parameter
combination; stated below any size_t overflow. -/
theorem c4_upper_bound (s : DeflateState) (n : Nat) (h : n < 1152921504606846976) :
    upper_bound s n =
      if s.w_bits = 15 ∧ s.hash_bits = 15 then claimBoundDefault n else claimBoundOther n := by
  have l12 : n >>> 12 ≤ n := by rw [Nat.shiftRight_eq_div_pow]; exact Nat.div_le_self _ _
  have l14 : n >>> 14 ≤ n := by rw [Nat.shiftRight_eq_div_pow]; exact Nat.div_le_self _ _
  have l25 : n >>> 25 ≤ n := by rw [Nat.shiftRight_eq_div_pow]; exact Nat.div_le_self _ _
  have h7 : (n + 7) % U64MOD = n + 7 := Nat.mod_eq_of_lt (by unfold U64MOD; omega)
  have h63 : (n + 63) % U64MOD = n + 63 := Nat.mod_eq_of_lt (by unfold U64MOD; omega)
  have e3 : (n + 7) >>> 3 = (n + 7) / 8 := by rw [Nat.shiftRight_eq_div_pow]
  have e6 : (n + 63) >>> 6 = (n + 63) / 64 := by rw [Nat.shiftRight_eq_div_pow]
  have l3 : (n + 7) / 8 ≤ n + 7 := Nat.div_le_self _ _
  have l6 : (n + 63) / 64 ≤ n + 63 := Nat.div_le_self _ _
  simp only [upper_bound, claimBoundDefault, claimBoundOther, h7, h63, e3, e6]
  split_ifs with h1 h2 h2
  · omega
  · have hlt : n + (n + 7) / 8 + (n + 63) / 64 + 5 < U64MOD := by unfold U64MOD; omega
    simp [Nat.mod_eq_of_lt hlt]
  · have hlt : n + n >>> 12 + n >>> 14 + n >>> 25 + 13 - 6 + 0 < U64MOD := by
      unfold U64MOD; omega
    rw [Nat.mod_eq_of_lt hlt]
    omega
  · omega

/-- Claim C4 witness: the theorem applied at a default-parameter stream
and n = 4096. -/
theorem c4_witness :
    upper_bound baseState 4096 =
      if baseState.w_bits = 15 ∧ baseState.hash_bits = 15 then claimBoundDefault 4096
      else claimBoundOther 4096 :=
  c4_upper_bound baseState 4096 (by decide)

/-! ## Claim C10 -/

/-- Claim C10: a deflate call with otherwise valid arguments but
avail_out = 0 returns buf_error at the guard at line 710, consuming no
input, producing no output, and changing nothing but the message slot. -/
theorem c10_deflate_buf_error (s : DeflateState) (flush : Int)
    (h0 : 0 ≤ flush) (h5 : flush ≤ Z_BLOCK)
    (hout : s.next_out_null = false)
    (hin : ¬ (s.next_in_null = true ∧ s.avail_in ≠ 0))
    (hfin : ¬ (s.status = FINISH_STATE ∧ flush ≠ Z_FINISH))
    (ha : s.avail_out = 0) :
    deflateEntry s flush = ({ s with msg := true }, some Z_BUF_ERROR) := by
  unfold deflateEntry
  rw [if_neg (by omega)]
  rw [if_neg (by simp only [hout]; tauto)]
  rw [if_pos ha]
  rfl

/-- Claim C10 witness: the theorem applied at a busy stream with three
input bytes and no output room. -/
theorem c10_witness :
    deflateEntry c10State 0 = ({ c10State with msg := true }, some Z_BUF_ERROR) :=
  c10_deflate_buf_error c10State 0 (by decide) (by decide) (by decide) (by decide)
    (by decide) (by decide)

/-! ## Claim C3 -/

/-- Claim C3 counterexample: a stream in FINISH state with no pending
output, no input, and a non-finish flush whose rank does not exceed the
recorded previous rank fails with stream_error, not buf_error. -/
theorem c3_counterexample :
    c3State.pending = 0 ∧ c3State.avail_in = 0 ∧
    RANK Z_NO_FLUSH ≤ RANK c3State.last_flush ∧ Z_NO_FLUSH ≠ Z_FINISH ∧
    (deflateEntry c3State Z_NO_FLUSH).2 = some Z_STREAM_ERROR ∧
    Z_STREAM_ERROR ≠ Z_BUF_ERROR := by
  decide

/-- Claim C3 (amended): with a valid flush value, a stream that is not
in the finish state and a non-null output pointer, a call with no
pending output, avail_in = 0, rank(flush) at most the rank of the
recorded last flush and flush distinct from finish fails with buf_error
and neither consumes input nor produces output. -/
theorem c3_rank_buf_error (s : DeflateState) (flush : Int)
    (h0 : 0 ≤ flush) (h5 : flush ≤ Z_BLOCK) (hf : flush ≠ Z_FINISH)
    (hst : s.status ≠ FINISH_STATE) (hout : s.next_out_null = false)
    (hp : s.pending = 0) (hin : s.avail_in = 0)
    (hr : RANK flush ≤ RANK s.last_flush) :
    (deflateEntry s flush).2 = some Z_BUF_ERROR ∧
    (deflateEntry s flush).1.total_in = s.total_in ∧
    (deflateEntry s flush).1.total_out = s.total_out ∧
    (deflateEntry s flush).1.avail_in = s.avail_in ∧
    (deflateEntry s flush).1.avail_out = s.avail_out := by
  unfold deflateEntry
  rw [if_neg (by omega)]
  have hguard : ¬ (s.next_out_null = true ∨ (s.next_in_null = true ∧ s.avail_in ≠ 0) ∨
      (s.status = FINISH_STATE ∧ flush ≠ Z_FINISH)) := by
    push_neg
    refine ⟨?_, ?_, ?_⟩
    · simp [hout]
    · intro _; exact hin
    · intro hfe; exact absurd hfe hst
  rw [if_neg hguard]
  by_cases ha : s.avail_out = 0
  · rw [if_pos ha]
    exact ⟨rfl, rfl, rfl, rfl, rfl⟩
  · rw [if_neg ha]
    have hpend : ¬ (({ s with last_flush := flush } : DeflateState).pending ≠ 0) := by
      simp [hp]
    rw [if_neg hpend]
    rw [if_pos ⟨hin, hr, hf⟩]
    exact ⟨rfl, rfl, rfl, rfl, rfl⟩

/-- Claim C3 witness: the amended theorem applied at a busy stream whose
previous call used sync flush, now called with partial flush and no
input. -/
theorem c3_witness :
    (deflateEntry c3wState Z_PARTIAL_FLUSH).2 = some Z_BUF_ERROR :=
  (c3_rank_buf_error c3wState Z_PARTIAL_FLUSH (by decide) (by decide) (by decide)
    (by decide) (by decide) (by decide) (by decide) (by decide)).1

/-! ## Claim C9 -/

/-- Claim C9 counterexample: a stream that has consumed five bytes
(total_in = 5) but holds no lookahead accepts a dictionary: the call
returns Z_OK and moves strstart from 0 to 2. -/
theorem c9_counterexample :
    c9State.total_in = 5 ∧ c9State.strstart = 0 ∧
    (deflateSetDictionary c9State c9Dict 2).2 = Z_OK ∧
    (deflateSetDictionary c9State c9Dict 2).1.strstart = 2 := by
  decide

/-- Claim C9 (amended): deflateSetDictionary fails with stream_error
exactly when the stream holds unconsumed lookahead, and on that failure
the state is unchanged; consumed input by itself (total_in > 0 with
lookahead = 0) does not make the call fail. -/
theorem c9_set_dictionary (s : DeflateState) (d : Nat → Nat) (n : Nat) :
    ((deflateSetDictionary s d n).2 = Z_STREAM_ERROR ↔ s.lookahead ≠ 0) ∧
    (s.lookahead ≠ 0 → (deflateSetDictionary s d n).1 = s) := by
  by_cases h : s.lookahead ≠ 0
  · unfold deflateSetDictionary
    rw [if_pos h]
    exact ⟨⟨fun _ => h, fun _ => rfl⟩, fun _ => rfl⟩
  · constructor
    · constructor
      · intro he
        exfalso
        have : (deflateSetDictionary s d n).2 = Z_OK := by
          unfold deflateSetDictionary
          rw [if_neg h]
        rw [this] at he
        exact absurd he (by decide)
      · intro hl; exact absurd hl h
    · intro hl; exact absurd hl h

/-- Claim C9 witness: the amended theorem applied at a stream holding
one byte of lookahead. -/
theorem c9_witness :
    (deflateSetDictionary c9wState c9Dict 3).2 = Z_STREAM_ERROR ∧
    (deflateSetDictionary c9wState c9Dict 3).1 = c9wState :=
  ⟨(c9_set_dictionary c9wState c9Dict 3).1.mpr (by decide),
   (c9_set_dictionary c9wState c9Dict 3).2 (by decide)⟩

/-! ## Claim C5 -/

/-- Claim C5: when fill_window runs with strstart at or past
w_size + MAX_DIST it slides: the upper window half moves down,
strstart, match_start (an unsigned 32-bit quantity, which truly
decreases when it was at least w_size) and block_start each drop by
w_size, and every head and prev entry below w_size becomes 0 while the
rest have w_size subtracted. -/
theorem c5_fill_window_slide (s : DeflateState)
    (h : s.w_size + maxDist s ≤ s.strstart)
    (hs32 : s.strstart < U32MOD)
    (hm : s.w_size ≤ s.match_start) (hm32 : s.match_start < U32MOD) :
    fillWindowSlide s = slideBlock s ∧
    (∀ i, i < s.w_size → (slideBlock s).window i = s.window (i + s.w_size)) ∧
    (slideBlock s).strstart = s.strstart - s.w_size ∧
    (slideBlock s).match_start = s.match_start - s.w_size ∧
    (slideBlock s).block_start = s.block_start - (s.w_size : Int) ∧
    (∀ i, (slideBlock s).head i = if s.head i < s.w_size then 0 else s.head i - s.w_size) ∧
    (∀ i, (slideBlock s).prev i = if s.prev i < s.w_size then 0 else s.prev i - s.w_size) := by
  refine ⟨?_, ?_, ?_, ?_, rfl, ?_, ?_⟩
  · unfold fillWindowSlide
    rw [if_pos h]
  · intro i hi
    show (if i < s.w_size then s.window (i + s.w_size) else s.window i) = _
    rw [if_pos hi]
  · exact usub32_eq _ _ (by omega) hs32
  · exact usub32_eq _ _ hm hm32
  · intro i
    show (if s.head i ≥ s.w_size then s.head i - s.w_size else 0) = _
    by_cases hi : s.head i < s.w_size
    · rw [if_neg (by omega), if_pos hi]
    · rw [if_pos (by omega), if_neg hi]
  · intro i
    show (if s.prev i ≥ s.w_size then s.prev i - s.w_size else 0) = _
    by_cases hi : s.prev i < s.w_size
    · rw [if_neg (by omega), if_pos hi]
    · rw [if_pos (by omega), if_neg hi]

/-- Claim C5 witness: the theorem applied at a stream with strstart
65300, past w_size + MAX_DIST = 65274. -/
theorem c5_witness :
    fillWindowSlide c5wState = slideBlock c5wState ∧
    (slideBlock c5wState).strstart = c5wState.strstart - c5wState.w_size :=
  ⟨(c5_fill_window_slide c5wState (by decide) (by decide) (by decide) (by decide)).1,
   (c5_fill_window_slide c5wState (by decide) (by decide) (by decide) (by decide)).2.2.1⟩

/-! ## Claim C6 -/

theorem lmStep_le (s : DeflateState) (nice cur best mstart se1 se : Nat) :
    best ≤ (lmStep s nice cur best mstart se1 se).1 := by
  simp only [lmStep]
  split_ifs <;> simp <;> omega

theorem lmLoop_le (s : DeflateState) (limit nice wmask : Nat) :
    ∀ chain cur best mstart se1 se,
      best ≤ (lmLoop s limit nice wmask chain cur best mstart se1 se).1 := by
  intro chain
  induction chain using Nat.strong_induction_on with
  | _ chain ih =>
    intro cur best mstart se1 se
    have hstep := lmStep_le s nice cur best mstart se1 se
    match chain with
    | 0 =>
      unfold lmLoop
      rcases hr : lmStep s nice cur best mstart se1 se with ⟨b1, m1, x1, y1, brk⟩
      rw [hr] at hstep
      simpa using hstep
    | 1 =>
      unfold lmLoop
      rcases hr : lmStep s nice cur best mstart se1 se with ⟨b1, m1, x1, y1, brk⟩
      rw [hr] at hstep
      simpa using hstep
    | c + 2 =>
      unfold lmLoop
      rcases hr : lmStep s nice cur best mstart se1 se with ⟨b1, m1, x1, y1, brk⟩
      rw [hr] at hstep
      simp only
      split_ifs with hbrk hcur
      · simpa using hstep
      · exact le_trans (by simpa using hstep) (ih (c + 1) (by omega) _ _ _ _ _)
      · simpa using hstep

/-- Claim C6: under the preconditions cur_match < strstart,
strstart - cur_match at most MAX_DIST and lookahead at least
MIN_LOOKAHEAD, longest_match returns min(best_len, lookahead), where
best_len is the best length the chain walk accumulates starting from
prev_length (so best_len is at least prev_length); in particular the
result never exceeds the lookahead. -/
theorem c6_longest_match (s : DeflateState) (cur : Nat)
    (h1 : cur < s.strstart) (h2 : s.strstart - cur ≤ maxDist s)
    (h3 : MIN_LOOKAHEAD ≤ s.lookahead) :
    (longestMatch s cur).1 = min (lmBest s cur) s.lookahead ∧
    s.prev_length ≤ lmBest s cur ∧
    (longestMatch s cur).1 ≤ s.lookahead := by
  refine ⟨?_, ?_, ?_⟩
  · simp only [longestMatch, lmBest]
    split_ifs with hb
    · exact (min_eq_left hb).symm
    · exact (min_eq_right (le_of_not_le hb)).symm
  · unfold lmBest longestMatchCore
    exact lmLoop_le s _ _ _ _ _ _ _ _ _
  · simp only [longestMatch]
    split_ifs with hb
    · exact hb
    · exact le_refl _

/-- Claim C6 witness: the theorem applied at a search state over a
constant window with cur_match = 50 and strstart = 100. -/
theorem c6_witness :
    (longestMatch c6wState 50).1 = min (lmBest c6wState 50) c6wState.lookahead ∧
    c6wState.prev_length ≤ lmBest c6wState 50 ∧
    (longestMatch c6wState 50).1 ≤ c6wState.lookahead :=
  c6_longest_match c6wState 50 (by decide) (by decide) (by decide)

/-! ## Claim C2 -/

theorem storedFullFlush_some (s s' : DeflateState) (bs : BlockState)
    (h : storedFullFlush s = (s', some bs)) : bs = BlockState.need_more := by
  simp only [storedFullFlush] at h
  split_ifs at h <;> simp_all

theorem storedSlideFlush_some (s s' : DeflateState) (bs : BlockState)
    (h : storedSlideFlush s = (s', some bs)) : bs = BlockState.need_more := by
  simp only [storedSlideFlush] at h
  split_ifs at h <;> simp_all

theorem storedIterate_ret (s s' : DeflateState) (flush : Int) (bs : BlockState)
    (h : storedIterate s flush = StoredStep.ret s' bs) : bs = BlockState.need_more := by
  simp only [storedIterate] at h
  split_ifs at h
  all_goals first
  | (cases h; rfl)
  | (cases h)
  | (generalize hF : storedFullFlush _ = F at h
     rcases F with ⟨s3, ob⟩
     cases ob with
     | some b =>
       simp only at h
       cases h
       exact storedFullFlush_some _ _ _ hF
     | none =>
       simp only at h
       generalize hS : storedSlideFlush s3 = S at h
       rcases S with ⟨s4, ob2⟩
       cases ob2 with
       | some b =>
         simp only at h
         cases h
         exact storedSlideFlush_some _ _ _ hS
       | none =>
         simp only at h
         cases h)

theorem storedLoop_inr (flush : Int) :
    ∀ fuel t r, deflateStoredLoop fuel t flush = Sum.inr r →
      r.2 = BlockState.need_more := by
  intro fuel
  induction fuel with
  | zero =>
    intro t r h
    simp only [deflateStoredLoop] at h
    cases h
    rfl
  | succ n ih =>
    intro t r h
    simp only [deflateStoredLoop] at h
    generalize hI : storedIterate t flush = I at h
    cases I with
    | ret s1 bs =>
      simp only at h
      cases h
      exact storedIterate_ret _ _ _ _ hI
    | brk s1 => simp at h
    | cont s1 => exact ih s1 r h

theorem deflateStored_insert (fuel : Nat) (flush : Int) (t : DeflateState)
    (h : (deflateStored fuel t flush).2 ≠ BlockState.need_more) :
    (deflateStored fuel t flush).1.insert = 0 := by
  unfold deflateStored at h ⊢
  generalize hL : deflateStoredLoop fuel t flush = L at h ⊢
  rcases L with s1 | r
  · simp only at h ⊢
    split_ifs <;> simp [flushBlockOnly_insert]
  · exact absurd (storedLoop_inr flush fuel t r hL) h

/-- Claim C2 (amended): the stored engine closes a full block exactly
when min(65535, pending_buf_size - 5) bytes are ready (65531 at the
default memLevel 8), emitting a non-final block of exactly that size at
the fullness check, and every exit of deflate_stored other than the
early need_more returns leaves insert = 0. -/
theorem c2_stored_block_size (s : DeflateState) (flush : Int) (fuel : Nat)
    (hb0 : 0 ≤ s.block_start)
    (hb1 : s.block_start + (maxBlockSize s : Int) < (U32MOD : Int))
    (hful : intToUInt32 (s.block_start + (maxBlockSize s : Int)) ≤ s.strstart) :
    maxBlockSize s = min 65535 (s.pending_buf_size - 5) ∧
    (storedFullFlush s).1.blocks = s.blocks ++ [(maxBlockSize s, false)] ∧
    (∀ t, (deflateStored fuel t flush).2 ≠ BlockState.need_more →
      (deflateStored fuel t flush).1.insert = 0) := by
  refine ⟨rfl, ?_, fun t ht => deflateStored_insert fuel flush t ht⟩
  have hmb32 : (maxBlockSize s : Int) < (U32MOD : Int) := by
    have hle : maxBlockSize s ≤ 65535 := min_le_left _ _
    unfold U32MOD
    omega
  have hlen : intToUInt32
      (((intToUInt32 (s.block_start + (maxBlockSize s : Int)) : Nat) : Int) - s.block_start) =
      maxBlockSize s := by
    rw [intToUInt32_eq _ (by omega) hb1]
    have h1 : (((s.block_start + (maxBlockSize s : Int)).toNat : Int)) =
        s.block_start + (maxBlockSize s : Int) := Int.toNat_of_nonneg (by omega)
    rw [h1]
    have h2 : s.block_start + (maxBlockSize s : Int) - s.block_start =
        (maxBlockSize s : Int) := by ring
    rw [h2, intToUInt32_eq _ (by omega) hmb32]
    omega
  simp only [storedFullFlush]
  rw [if_pos (Or.inr hful)]
  split_ifs with ho <;>
    · simp only
      rw [flushBlockOnly_blocks]
      simp only
      rw [hlen]

/-- Claim C2 counterexample: a fresh default-parameter level-0 stream
fed 70000 bytes under flush = none (so no block is closed early by a
flush) emits a stored block of 65531 bytes, exceeding the 65530 byte
bound of the claim. -/
theorem c2_counterexample :
    (deflateStored 10 c2State Z_NO_FLUSH).1.blocks = [(65531, false)] ∧
    65530 < 65531 := by
  decide

/-- Claim C2 witness: the amended theorem applied at a default-parameter
state whose strstart has run 65531 bytes past block_start. -/
theorem c2_witness :
    (storedFullFlush c2wState).1.blocks = c2wState.blocks ++ [(maxBlockSize c2wState, false)] :=
  (c2_stored_block_size c2wState 0 5 (by decide) (by decide) (by decide)).2.1

/-! ## Claim C7 -/

theorem hashAgree_refl (s : DeflateState) : HashAgree s s :=
  ⟨rfl, rfl, rfl, rfl, rfl, rfl, rfl⟩

theorem hashAgree_trans {a b c : DeflateState} (h1 : HashAgree a b) (h2 : HashAgree b c) :
    HashAgree a c := by
  obtain ⟨w1, i1, hd1, p1, m1, s1, k1⟩ := h1
  obtain ⟨w2, i2, hd2, p2, m2, s2, k2⟩ := h2
  exact ⟨w1.trans w2, i1.trans i2, hd1.trans hd2, p1.trans p2, m1.trans m2,
    s1.trans s2, k1.trans k2⟩

theorem hashAgree_insertString (s t : DeflateState) (p : Nat) (h : HashAgree s t) :
    HashAgree (insertString s p).1 (insertString t p).1 := by
  obtain ⟨hw, hi, hh, hp, hm, hsh, hmask⟩ := h
  unfold HashAgree insertString updateHash
  simp only [hw, hi, hh, hp, hm, hsh, hmask]
  exact ⟨trivial, trivial, trivial, trivial, trivial, trivial, trivial⟩

theorem hashAgree_fold (L : List Nat) :
    ∀ (s t : DeflateState), HashAgree s t →
      HashAgree (hashFoldAll s L) (hashFoldAll t L) := by
  induction L with
  | nil => intro s t h; exact h
  | cons p L ih =>
    intro s t h
    simp only [hashFoldAll, List.foldl_cons] at *
    exact ih _ _ (hashAgree_insertString s t p h)

theorem hashAgree_foldIf (m : Nat) (L : List Nat) :
    ∀ (s t : DeflateState), HashAgree s t →
      HashAgree (hashFoldIf m s L) (hashFoldIf m t L) := by
  induction L with
  | nil => intro s t h; exact h
  | cons p L ih =>
    intro s t h
    simp only [hashFoldIf, List.foldl_cons] at *
    by_cases hp : p ≤ m
    · rw [if_pos hp, if_pos hp]
      exact ih _ _ (hashAgree_insertString s t p h)
    · rw [if_neg hp, if_neg hp]
      exact ih _ _ h

theorem hashFoldIf_filter (m : Nat) :
    ∀ (L : List Nat) (s : DeflateState),
      hashFoldIf m s L = hashFoldAll s (L.filter (fun p => p ≤ m)) := by
  intro L
  induction L with
  | nil => intro s; rfl
  | cons p L ih =>
    intro s
    by_cases hp : p ≤ m
    · have hL : (p :: L).filter (fun q => q ≤ m) = p :: L.filter (fun q => q ≤ m) := by
        simp [List.filter_cons, hp]
      rw [hL]
      have h2 : hashFoldIf m s (p :: L) = hashFoldIf m (insertString s p).1 L := by
        simp only [hashFoldIf, List.foldl_cons, if_pos hp]
      rw [h2]
      have h3 : hashFoldAll s (p :: L.filter (fun q => q ≤ m)) =
          hashFoldAll (insertString s p).1 (L.filter (fun q => q ≤ m)) := rfl
      rw [h3]
      exact ih _
    · have hL : (p :: L).filter (fun q => q ≤ m) = L.filter (fun q => q ≤ m) := by
        simp [List.filter_cons, hp]
      rw [hL]
      have h2 : hashFoldIf m s (p :: L) = hashFoldIf m s L := by
        simp only [hashFoldIf, List.foldl_cons, if_neg hp]
      rw [h2]
      exact ih _

theorem posList_succ (st n : Nat) :
    posList st (n + 1) = (st + 1) :: posList (st + 1) n := by
  unfold posList
  rw [List.range_succ_eq_map]
  simp only [List.map_cons, List.map_map, Nat.add_zero]
  refine congrArg (fun l => (st + 1) :: l) ?_
  apply List.map_congr_left
  intro a _
  simp only [Function.comp_apply]
  omega

theorem slowInsertStep_strstart (m : Nat) (s : DeflateState) :
    (slowInsertStep m s).strstart = s.strstart + 1 := by
  simp only [slowInsertStep]
  split_ifs <;> rfl

theorem slowInsertStep_tokens (m : Nat) (s : DeflateState) :
    (slowInsertStep m s).tokens = s.tokens := by
  simp only [slowInsertStep]
  split_ifs <;> rfl

theorem slowInsertLoop_strstart (m : Nat) :
    ∀ (n : Nat) (s : DeflateState), (slowInsertLoop m n s).strstart = s.strstart + n := by
  intro n
  induction n with
  | zero => intro s; rfl
  | succ n ih =>
    intro s
    simp only [slowInsertLoop]
    rw [ih, slowInsertStep_strstart]
    omega

theorem slowInsertLoop_tokens (m : Nat) :
    ∀ (n : Nat) (s : DeflateState), (slowInsertLoop m n s).tokens = s.tokens := by
  intro n
  induction n with
  | zero => intro s; rfl
  | succ n ih =>
    intro s
    simp only [slowInsertLoop]
    rw [ih, slowInsertStep_tokens]

theorem slowInsertStep_agree (m : Nat) (s : DeflateState) :
    HashAgree (slowInsertStep m s)
      (if s.strstart + 1 ≤ m then (insertString s (s.strstart + 1)).1 else s) := by
  have hbase : HashAgree ({ s with strstart := s.strstart + 1 } : DeflateState) s :=
    ⟨rfl, rfl, rfl, rfl, rfl, rfl, rfl⟩
  simp only [slowInsertStep]
  by_cases hp : s.strstart + 1 ≤ m
  · rw [if_pos hp]
    show HashAgree (insertString { s with strstart := s.strstart + 1 } (s.strstart + 1)).1 _
    rw [if_pos hp]
    exact hashAgree_insertString _ _ _ hbase
  · rw [if_neg hp]
    show HashAgree ({ s with strstart := s.strstart + 1 } : DeflateState) _
    rw [if_neg hp]
    exact hbase

theorem slowInsertLoop_agree (m : Nat) :
    ∀ (n : Nat) (s : DeflateState),
      HashAgree (slowInsertLoop m n s) (hashFoldIf m s (posList s.strstart n)) := by
  intro n
  induction n with
  | zero => intro s; exact hashAgree_refl s
  | succ n ih =>
    intro s
    rw [posList_succ]
    simp only [slowInsertLoop]
    have hR : hashFoldIf m s ((s.strstart + 1) :: posList (s.strstart + 1) n) =
        hashFoldIf m (if s.strstart + 1 ≤ m then (insertString s (s.strstart + 1)).1 else s)
          (posList (s.strstart + 1) n) := rfl
    rw [hR]
    have h1 : HashAgree (slowInsertLoop m n (slowInsertStep m s))
        (hashFoldIf m (slowInsertStep m s) (posList (s.strstart + 1) n)) := by
      have h0 := ih (slowInsertStep m s)
      rwa [slowInsertStep_strstart] at h0
    exact hashAgree_trans h1 (hashAgree_foldIf m _ _ _ (slowInsertStep_agree m s))

/-- Claim C7: at any lazy-engine decision step with
prev_length ≥ MIN_MATCH and match_length ≤ prev_length (and the
wellformedness the engine maintains: prev_length ≤ MAX_MATCH,
prev_match strictly behind strstart - 1 within distance 2^16 - 1, and
strstart a positive uint32 value), the engine commits the previous
match: it emits the token (strstart - 1 - prev_match,
prev_length - MIN_MATCH), advances strstart by prev_length - 1, clears
match_available, and updates head and prev exactly by inserting the
positions strstart + 1 through strstart + prev_length - 2 that do not
exceed strstart + lookahead - MIN_MATCH. -/
theorem c7_slow_commit (s : DeflateState)
    (h1 : MIN_MATCH ≤ s.prev_length) (h2 : s.match_length ≤ s.prev_length)
    (h3 : s.prev_length ≤ MAX_MATCH) (h4 : 1 ≤ s.strstart) (h5 : s.strstart < U32MOD)
    (h6 : s.prev_match ≤ s.strstart - 1) (h7 : s.strstart - 1 - s.prev_match < 65536) :
    (slowDecide s).1.tokens =
      s.tokens ++ [(s.strstart - 1 - s.prev_match, s.prev_length - MIN_MATCH)] ∧
    (slowDecide s).1.strstart = s.strstart + s.prev_length - 1 ∧
    (slowDecide s).1.match_available = false ∧
    (slowDecide s).1.head = (hashFoldAll s (insertedList s)).head ∧
    (slowDecide s).1.prev = (hashFoldAll s (insertedList s)).prev ∧
    (∀ p ∈ insertedList s, s.strstart + 1 ≤ p ∧ p ≤ s.strstart + s.prev_length - 2 ∧
      p ≤ s.strstart + s.lookahead - MIN_MATCH) := by
  have h1' : 3 ≤ s.prev_length := h1
  have h3' : s.prev_length ≤ 258 := h3
  have hred : ((slowDecide s).1.tokens = (slowCommit s).1.tokens) ∧
      ((slowDecide s).1.strstart = (slowCommit s).1.strstart) ∧
      ((slowDecide s).1.match_available = (slowCommit s).1.match_available) ∧
      ((slowDecide s).1.head = (slowCommit s).1.head) ∧
      ((slowDecide s).1.prev = (slowCommit s).1.prev) := by
    simp only [slowDecide, if_pos (And.intro h1 h2)]
    split_ifs <;>
      first
      | exact ⟨rfl, rfl, rfl, rfl, rfl⟩
      | exact ⟨flushBlockOnly_tokens _ _, flushBlockOnly_strstart _ _,
          flushBlockOnly_match_available _ _, flushBlockOnly_head _ _,
          flushBlockOnly_prev _ _⟩
  have hd : usub32 (usub32 s.strstart 1) s.prev_match = s.strstart - 1 - s.prev_match := by
    rw [usub32_eq s.strstart 1 h4 h5]
    exact usub32_eq _ _ h6 (by unfold U32MOD at *; omega)
  have hdm : (s.strstart - 1 - s.prev_match) % 65536 = s.strstart - 1 - s.prev_match :=
    Nat.mod_eq_of_lt h7
  have hlm : (s.prev_length - MIN_MATCH) % 256 = s.prev_length - MIN_MATCH := by
    show (s.prev_length - 3) % 256 = s.prev_length - 3
    exact Nat.mod_eq_of_lt (by omega)
  have ht : (slowCommit s).1.tokens = s.tokens ++
      [((usub32 (usub32 s.strstart 1) s.prev_match) % 65536,
        (s.prev_length - MIN_MATCH) % 256)] := by
    simp only [slowCommit, tallyDist]
    rw [slowInsertLoop_tokens]
  have ht2 : (slowCommit s).1.tokens =
      s.tokens ++ [(s.strstart - 1 - s.prev_match, s.prev_length - MIN_MATCH)] := by
    rw [ht, hd, hdm, hlm]
  have hst : (slowCommit s).1.strstart = s.strstart + s.prev_length - 1 := by
    simp only [slowCommit, tallyDist]
    rw [slowInsertLoop_strstart]
    show s.strstart + (s.prev_length - 2) + 1 = s.strstart + s.prev_length - 1
    omega
  have hma : (slowCommit s).1.match_available = false := rfl
  set m := s.strstart + s.lookahead - MIN_MATCH with hm
  set s2 : DeflateState := { s with
      tokens := s.tokens ++ [((usub32 (usub32 s.strstart 1) s.prev_match) % 65536,
        (s.prev_length - MIN_MATCH) % 256)],
      last_lit := s.last_lit + 1,
      lookahead := s.lookahead - (s.prev_length - 1) } with hs2
  have hcommit : (slowCommit s).1 = { slowInsertLoop m (s.prev_length - 2) s2 with
      prev_length := 0, match_available := false, match_length := MIN_MATCH - 1,
      strstart := (slowInsertLoop m (s.prev_length - 2) s2).strstart + 1 } := rfl
  have ha := slowInsertLoop_agree m (s.prev_length - 2) s2
  have hs2strstart : s2.strstart = s.strstart := rfl
  rw [hs2strstart] at ha
  rw [hashFoldIf_filter] at ha
  have hsub : HashAgree s2 s := ⟨rfl, rfl, rfl, rfl, rfl, rfl, rfl⟩
  have hb := hashAgree_fold
    ((posList s.strstart (s.prev_length - 2)).filter (fun p => p ≤ m)) s2 s hsub
  obtain ⟨_, _, hh1, hp1, _, _, _⟩ := ha
  obtain ⟨_, _, hh2, hp2, _, _, _⟩ := hb
  have hhead : (slowCommit s).1.head = (hashFoldAll s (insertedList s)).head := by
    calc (slowCommit s).1.head
        = (slowInsertLoop m (s.prev_length - 2) s2).head := by rw [hcommit]
      _ = (hashFoldAll s2
            ((posList s.strstart (s.prev_length - 2)).filter (fun p => p ≤ m))).head := hh1
      _ = (hashFoldAll s
            ((posList s.strstart (s.prev_length - 2)).filter (fun p => p ≤ m))).head := hh2
      _ = (hashFoldAll s (insertedList s)).head := rfl
  have hprev : (slowCommit s).1.prev = (hashFoldAll s (insertedList s)).prev := by
    calc (slowCommit s).1.prev
        = (slowInsertLoop m (s.prev_length - 2) s2).prev := by rw [hcommit]
      _ = (hashFoldAll s2
            ((posList s.strstart (s.prev_length - 2)).filter (fun p => p ≤ m))).prev := hp1
      _ = (hashFoldAll s
            ((posList s.strstart (s.prev_length - 2)).filter (fun p => p ≤ m))).prev := hp2
      _ = (hashFoldAll s (insertedList s)).prev := rfl
  refine ⟨hred.1.trans ht2, hred.2.1.trans hst, hred.2.2.1.trans hma,
    hred.2.2.2.1.trans hhead, hred.2.2.2.2.trans hprev, ?_⟩
  intro p hp
  unfold insertedList posList at hp
  simp only [List.mem_filter, List.mem_map, List.mem_range, decide_eq_true_eq] at hp
  obtain ⟨⟨i, hi, rfl⟩, hle⟩ := hp
  exact ⟨by omega, by omega, hle⟩

/-- Claim C7 witness: the theorem applied at a lazy-engine state holding
a deferred match of length 4 at distance 4. -/
theorem c7_witness :
    (slowDecide c7wState).1.tokens = c7wState.tokens ++
      [(c7wState.strstart - 1 - c7wState.prev_match, c7wState.prev_length - MIN_MATCH)] :=
  (c7_slow_commit c7wState (by decide) (by decide) (by decide) (by decide) (by decide)
    (by decide) (by decide)).1

end Beast
